import Mathlib

/-!
Verification of the control-systems computation engine of the
`controladores` repository (files `TCC.py` and `main.py`), against its
natural-language specification.  The engine parts present in the source are
embedded directly (the Routh–Hurwitz analyzer `routh_hurwitz`, the
coefficient parser `parse_coefficients`, the controller synthesis branch for
the Avanço-Atraso controller, and the time-grid construction of the
ramp/parabola simulations).  Operations the source delegates to external
libraries (python-control `tf`/`feedback`/`*`, scipy `lsim`, numpy
`linspace`) are modelled from the specification and marked as such in their
doc comments.

Numbers are modelled by `ℚ`: the source works with Python floats and sympy
numbers, and all inputs exercised here are small integers on which float
arithmetic is exact.
-/

namespace Controladores

/-! ## Routh–Hurwitz stability analyzer (`TCC.py`, `routh_hurwitz`)

The source stores every table cell as a *string* (the s-power label at cell
0, numeric cells from cell 1 on) and parses cells back with `float`.  We
keep only the numeric cells, so source cell `row[j]` is entry `j - 1` here,
and we record for each cell how its string was produced, because the
trailing-zero removal compares cells against the literal string `"0"`. -/

/-- A numeric table cell, tagged with the way its string was produced:
`raw q` is `str(c)` of an input coefficient, `pad` is the literal `"0"`
appended to pad the second row when the degree is even, and `fmt q` is
`f"{a:.4f}"` of a computed entry (we record the value after the 4-decimal
rounding the format applies). -/
inductive Entry
  | raw (q : ℚ)
  | pad
  | fmt (q : ℚ)
  deriving DecidableEq

/-- `float(cell)`: the numeric value the source reads back from a cell. -/
def Entry.val : Entry → ℚ
  | raw q => q
  | pad => 0
  | fmt q => q

/-- `cell == "0"`: a `%.4f`-formatted string always contains a decimal point
(`"0.0000"`), so it never equals `"0"`; the literal pad is `"0"`; `str` of an
input coefficient is `"0"` exactly when sympy filled in an integer zero for a
missing power (a `str` of any sympy Float carries decimals). -/
def Entry.isZeroStr : Entry → Bool
  | raw q => decide (q = 0)
  | pad => true
  | fmt _ => false

/-- The value printed by `f"{a:.4f}"` and read back by `float`: `a` rounded
to 4 decimal places (nearest; Python resolves ties on the binary double,
a case that does not arise on the inputs exercised here). -/
def fmt4 (q : ℚ) : ℚ := (⌊q * 10000 + 1 / 2⌋ : ℚ) / 10000

/-- `coeffs[::2]`: every other element starting at index 0. -/
def evenIdx : List ℚ → List ℚ
  | [] => []
  | [a] => [a]
  | a :: _ :: rest => a :: evenIdx rest

/-- `coeffs[1::2]`: every other element starting at index 1. -/
def oddIdx : List ℚ → List ℚ
  | [] => []
  | _ :: rest => evenIdx rest

/-- `float(row[j])` for source cell index `j + 1` (numeric entry `j`),
defaulting to 0 out of range (the source only reads cells that exist). -/
def rowVal (r : List Entry) (j : ℕ) : ℚ := ((r.get? j).map Entry.val).getD 0

/-- One newly computed table row (source loop over
`j in range(1, len(prev_prev_row) - 1)`): each entry is
`(prev[1]*prev_prev[j+1] - prev_prev[1]*prev[j+1]) / prev[1]`, where an
out-of-range `prev[j+1]` raises `IndexError`, caught by the bare `except`
that sets the whole entry to 0; every entry is stored as `f"{a:.4f}"`. -/
def nextRow (pp p : List Entry) : List Entry :=
  (List.range (pp.length - 1)).map fun j =>
    Entry.fmt (fmt4 (match p.get? (j + 1) with
      | some e => (rowVal p 0 * rowVal pp (j + 1) - rowVal pp 0 * e.val) / rowVal p 0
      | none => 0))

/-- `while len(table[i]) > 1 and table[i][-1] == "0": table[i] = table[i][:-1]`:
drop trailing cells whose string is `"0"` (stopping anyway once only the
label cell would remain, i.e. once the numeric entries are exhausted). -/
def dropTrailingZeroStr (r : List Entry) : List Entry :=
  (r.reverse.dropWhile Entry.isZeroStr).reverse

/-- The row-construction loop (source `for i in range(2, n)`), threading the
previous two rows and the accumulated table; the `Bool` reports whether the
zero-pivot early return `float(prev_row[1]) == 0` was taken, in which case
the table built so far is returned unchanged.  `fuel` is the number of loop
iterations remaining (`n - 2` at the start). -/
def buildLoop : ℕ → List Entry → List Entry → List (List Entry) →
    List (List Entry) × Bool
  | 0, _, _, acc => (acc, false)
  | fuel + 1, pp, p, acc =>
    if rowVal p 0 = 0 then (acc, true)
    else
      let r := dropTrailingZeroStr (nextRow pp p)
      if r.isEmpty then (acc ++ [r], false)
      else buildLoop fuel p r (acc ++ [r])

/-- The sign precondition
`all(c > 0 for c in coeffs) or all(c < 0 for c in coeffs)`. -/
def sameSignPre (coeffs : List ℚ) : Bool :=
  coeffs.all (fun c => decide (0 < c)) || coeffs.all (fun c => decide (c < 0))

/-- Table construction of `routh_hurwitz` after the sign precondition:
row 0 holds `coeffs[::2]`, row 1 (present when `n > 1`) holds `coeffs[1::2]`
padded with the literal `"0"` when `n` is odd, and the loop adds the
remaining rows; the `Bool` reports the zero-pivot early return. -/
def routhTable (coeffs : List ℚ) : List (List Entry) × Bool :=
  let n := coeffs.length
  let row0 := (evenIdx coeffs).map Entry.raw
  let row1 := (oddIdx coeffs).map Entry.raw ++
    (if n % 2 == 1 then [Entry.pad] else [])
  if n > 1 then buildLoop (n - 2) row0 row1 [row0, row1]
  else ([row0], false)

/-- The classification outcomes of `routh_hurwitz`, one per result string:
`Stable` is `"Estável"`, `MarginallyStable` is
`"Marginalmente Estável (polos no eixo imaginário)"`, and the three
`Unstable` variants carry the reason — mixed-sign coefficients
(`"coeficientes com sinais diferentes"`), zero pivot
(`"divisão por zero na tabela"`), or `k` right-half-plane poles
(`f"{k} polos no semiplano direito"`). -/
inductive Stability
  | Stable
  | MarginallyStable
  | UnstableMixedSigns
  | UnstableSingularPivot
  | UnstableSignChanges (k : ℕ)
  deriving DecidableEq

/-- `[float(row[1]) for row in table if len(row) > 1]`: the first numeric
column, skipping rows reduced to the label cell alone. -/
def firstCol (t : List (List Entry)) : List ℚ :=
  t.filterMap fun r => match r with
    | [] => none
    | e :: _ => some e.val

/-- `sum(1 for i in range(len(first_col)-1) if first_col[i]*first_col[i+1] < 0)`. -/
def signChanges : List ℚ → ℕ
  | a :: b :: rest => (if a * b < 0 then 1 else 0) + signChanges (b :: rest)
  | _ => 0

/-- The final classification block of `routh_hurwitz` as a function of the
first column it scans: any sign change gives Unstable with the count;
otherwise a first-column entry with `abs(float(row[1])) < 1e-10` gives
MarginallyStable, else Stable.  (Spec §4.4 step 4 states this same mapping.) -/
def classifyFirstCol (fc : List ℚ) : Stability :=
  let k := signChanges fc
  if k > 0 then Stability.UnstableSignChanges k
  else if fc.any (fun q => decide (|q| < 1 / 10 ^ 10)) then Stability.MarginallyStable
  else Stability.Stable

/-- `routh_hurwitz` on the denominator coefficients (descending order, as
`sympy.Poly.all_coeffs()` returns them): the mixed-sign short circuit returns
the single row `coeffs[::2]`; otherwise the table is built, a zero pivot
returns the partial table as Unstable, and otherwise the first column of the
completed table is classified. -/
def routh_hurwitz (coeffs : List ℚ) : List (List Entry) × Stability :=
  if sameSignPre coeffs = false then
    ([(evenIdx coeffs).map Entry.raw], Stability.UnstableMixedSigns)
  else if (routhTable coeffs).2 then
    ((routhTable coeffs).1, Stability.UnstableSingularPivot)
  else
    ((routhTable coeffs).1, classifyFirstCol (firstCol (routhTable coeffs).1))

/-! ## Transfer-function algebra (python-control `tf`, `feedback`, `*`)

The repository composes transfer functions through the external
python-control library (`from control import tf, feedback`), so the algebra
itself is not in `src/`; the operations below are modelled from the
specification (§4.1–§4.2) and are marked so in their doc comments. -/

/-- A transfer function: numerator and denominator coefficient lists in
descending power order (spec §3). -/
structure TF where
  num : List ℚ
  den : List ℚ
  deriving DecidableEq

/-- Modelled from the spec (§4.1 `series`): the product of two polynomials
given as descending-order coefficient lists is their convolution — entry `k`
sums `a i * b (k - i)`; the result has length `a.length + b.length - 1` (and
the product with an empty list is empty). -/
def conv (a b : List ℚ) : List ℚ :=
  if a.isEmpty || b.isEmpty then []
  else (List.range (a.length + b.length - 1)).map fun k =>
    ∑ i ∈ Finset.range (k + 1), a.getD i 0 * b.getD (k - i) 0

/-- Modelled from the spec (§4.1 `series`): numerator and denominator are
the respective convolutions.  python-control's `*` on transfer functions,
used by `get_controller_tf`, is this series composition. -/
def seriesTF (A B : TF) : TF := ⟨conv A.num B.num, conv A.den B.den⟩

/-- Modelled from the spec (§4.2, Lead/Lag row): a scalar gain multiplies
the numerator coefficients and leaves the denominator unchanged. -/
def scalarMulTF (c : ℚ) (G : TF) : TF := ⟨G.num.map fun x => c * x, G.den⟩

/-- The `Avanço-Atraso` branch of `get_controller_tf` (TCC.py and main.py):
`kp * G_avanco * G_atraso`, where python-control promotes the scalar `kp` to
the static-gain transfer function `[kp] / [1]` and `*` is the series
product; the two factors are `tf(num_c, den_c)` and `tf(num_at, den_at)`. -/
def get_controller_tf_leadlag (kp : ℚ) (num_c den_c num_at den_at : List ℚ) :
    TF :=
  seriesTF (seriesTF ⟨[kp], [1]⟩ ⟨num_c, den_c⟩) ⟨num_at, den_at⟩

/-- Addition of two descending-order coefficient lists as polynomials: the
constant terms (right ends) are aligned, i.e. the shorter list is
left-padded with zeros to the common length, then the lists are added
pointwise. -/
def padAddLow (a b : List ℚ) : List ℚ :=
  List.zipWith (· + ·)
    (List.replicate (max a.length b.length - a.length) 0 ++ a)
    (List.replicate (max a.length b.length - b.length) 0 ++ b)

/-- The addition exactly as the claim words it: both descending-order lists
right-padded with zeros to the common length before pointwise addition. -/
def padAddRight (a b : List ℚ) : List ℚ :=
  List.zipWith (· + ·)
    (a ++ List.replicate (max a.length b.length - a.length) 0)
    (b ++ List.replicate (max a.length b.length - b.length) 0)

/-- Modelled from the spec (§4.1 `feedback`): `feedback(G, 1)` — unity
negative feedback, computed by the external python-control library: the
closed-loop numerator is `G.num` and the closed-loop denominator is the
polynomial sum `G.den + G.num`. -/
def fb_unity (G : TF) : TF := ⟨G.num, padAddLow G.den G.num⟩

/-! ## Ramp/parabola simulation time grid (`update_noctrl_plots`,
`update_ctrl_plots` in TCC.py and main.py) -/

/-- `np.linspace(a, b, n)` (numpy, external): `n` evenly spaced samples from
`a` to `b`, both endpoints included — sample `i` is
`a + (b - a) * i / (n - 1)`. -/
def linspace (a b : ℚ) (n : ℕ) : List ℚ :=
  (List.range n).map fun i : ℕ => a + (b - a) * (i : ℚ) / ((n : ℚ) - 1)

/-- The `Rampa` branch of `update_noctrl_plots` / `update_ctrl_plots`:
`t = np.linspace(0, 10, 1000)`, reference `u = t`, then
`t, y, _ = scipy_lsim(sys_fb, u, t)`.  `scipy.signal.lsim` is external; per
the spec (§4.5) it forward-simulates a state-space realization over the
given grid and returns that same grid with one output sample per grid
point, so it is abstracted by `lsimF` (taking `u` and `t`), with the
per-sample guarantee a hypothesis of the theorem.  The result is the
plotted triple `(t, y, u)`. -/
def rampBranch (lsimF : List ℚ → List ℚ → List ℚ) :
    List ℚ × List ℚ × List ℚ :=
  let t := linspace 0 10 1000
  let u := t
  (t, lsimF u t, u)

/-- The `Parábola` branch of `update_noctrl_plots` / `update_ctrl_plots`:
identical to the ramp branch except `u = (t**2) / 2`. -/
def parabolaBranch (lsimF : List ℚ → List ℚ → List ℚ) :
    List ℚ × List ℚ × List ℚ :=
  let t := linspace 0 10 1000
  let u := t.map fun x => x ^ 2 / 2
  (t, lsimF u t, u)

/-! ## Coefficient parsing (`parse_coefficients` in TCC.py and main.py)

Strings are modelled as `List Char`.  Python's `float` literal parser is a
builtin external to the repository, so it is abstracted by a parameter
`pf : List Char → Option ℚ` (`none` models `ValueError`). -/

/-- Python whitespace (`str.split` with no argument splits on these). -/
def isPyWs (c : Char) : Bool :=
  c = ' ' || c = '\t' || c = '\n' || c = '\r' ||
    c = Char.ofNat 11 || c = Char.ofNat 12

/-- `'['` or `']'` — the characters `entry_text.strip("[]")` removes. -/
def isBracketChar (c : Char) : Bool :=
  c = '[' || c = ']'

/-- Python `s.strip(chars)` / `s.strip()`: remove every leading and trailing
character satisfying `p`. -/
def pyStrip (p : Char → Bool) (s : List Char) : List Char :=
  ((s.dropWhile p).reverse.dropWhile p).reverse

/-- Helper for `pySplit`: walks the string accumulating the current token in
reverse; whitespace flushes a nonempty token, and empty tokens are never
produced. -/
def pySplitAux : List Char → List Char → List (List Char)
  | [], acc => if acc.isEmpty then [] else [acc.reverse]
  | c :: rest, acc =>
    if isPyWs c then
      if acc.isEmpty then pySplitAux rest []
      else acc.reverse :: pySplitAux rest []
    else pySplitAux rest (c :: acc)

/-- Python `s.split()` with no separator: the maximal runs of
non-whitespace characters, in order; a string of only whitespace yields the
empty list. -/
def pySplit (s : List Char) : List (List Char) := pySplitAux s []

/-- The list comprehension `[float(x.strip()) for x in clean_text.split()]`:
parse every token (stripped of whitespace) with `pf`; a `ValueError`
(`none`) from any token aborts the comprehension, which the enclosing
`try/except ValueError` turns into the overall `None` result. -/
def parseTokens (pf : List Char → Option ℚ) :
    List (List Char) → Option (List ℚ)
  | [] => some []
  | x :: xs =>
    match pf (pyStrip isPyWs x) with
    | none => none
    | some v =>
      match parseTokens pf xs with
      | none => none
      | some vs => some (v :: vs)

/-- `parse_coefficients` (TCC.py line 1111 and main.py line 431, identical):
strip `'['`/`']'` from both ends, split on whitespace, parse every token as
a float; `None` models the `messagebox` error path taken on `ValueError`
(the UI side effect itself is out of scope). -/
def parse_coefficients (pf : List Char → Option ℚ) (entry_text : List Char) :
    Option (List ℚ) :=
  parseTokens pf (pySplit (pyStrip isBracketChar entry_text))

end Controladores

namespace Controladores

/-- C1 counterexample: on den = [1, 0, 1] the analyzer does *not* return
MarginallyStable — the zero coefficient fails the strict sign precondition. -/
theorem routh_one_zero_one_not_marginal :
    (routh_hurwitz [1, 0, 1]).2 ≠ Stability.MarginallyStable := by
  decide

/-- C1 (amended): den = [1, 0, 1] is classified Unstable with the
mixed-sign-coefficients reason, because the zero coefficient fails the
strict all-positive/all-negative precondition; the returned table holds only
the initial row [1, 1]. -/
theorem routh_one_zero_one_mixed_signs :
    routh_hurwitz [1, 0, 1] =
      ([[Entry.raw 1, Entry.raw 1]], Stability.UnstableMixedSigns) := by
  decide

/-- C6 counterexample: on den = [1, -1, 1] the analyzer does not report a
right-half-plane sign-change count of 1 (no count is computed at all). -/
theorem routh_one_neg_one_one_no_count :
    (routh_hurwitz [1, -1, 1]).2 ≠ Stability.UnstableSignChanges 1 := by
  decide

/-- C6 (amended): den = [1, -1, 1] is classified Unstable via the mixed-sign
precondition (reason: coefficients with differing signs); the sign-change
scan never runs and the table holds only the initial row [1, 1]. -/
theorem routh_one_neg_one_one_mixed_signs :
    routh_hurwitz [1, -1, 1] =
      ([[Entry.raw 1, Entry.raw 1]], Stability.UnstableMixedSigns) := by
  decide

/-- C2 counterexample: den = [1, 1, 1, 1] passes the same-sign precondition,
yet its classification is not the one the first column of the returned table
dictates — the zero pivot aborts construction into Unstable (singular pivot),
while the first column [1, 1, 0] has zero sign changes and a near-zero entry,
which the stated rule would call MarginallyStable. -/
theorem routh_first_col_rule_fails_on_zero_pivot :
    sameSignPre [1, 1, 1, 1] = true ∧
    (routh_hurwitz [1, 1, 1, 1]).2 ≠
      classifyFirstCol (firstCol (routh_hurwitz [1, 1, 1, 1]).1) := by
  norm_num [routh_hurwitz, sameSignPre, routhTable, buildLoop, nextRow, rowVal,
    evenIdx, oddIdx, fmt4, dropTrailingZeroStr, Entry.isZeroStr, Entry.val,
    List.range_succ, firstCol, classifyFirstCol, signChanges]
  decide

/-- C2 (amended): for every denominator passing the same-sign precondition
*whose table construction completes without a zero pivot*, the classification
equals the first-column rule applied to the returned table: zero sign changes
and no entry with absolute value below 1e-10 gives Stable, zero sign changes
with such an entry gives MarginallyStable, and k ≥ 1 sign changes gives
Unstable with reported count k. -/
theorem routh_classification_by_first_column (coeffs : List ℚ)
    (hpre : sameSignPre coeffs = true)
    (hsing : (routhTable coeffs).2 = false) :
    (routh_hurwitz coeffs).2 =
      classifyFirstCol (firstCol (routh_hurwitz coeffs).1) := by
  simp [routh_hurwitz, hpre, hsing]

/-- C2 witness: the amended theorem applied to den = [1, 1] (a completed
table with first column [1, 1], classified Stable). -/
theorem routh_classification_by_first_column_witness :
    (routh_hurwitz [1, 1]).2 =
      classifyFirstCol (firstCol (routh_hurwitz [1, 1]).1) :=
  routh_classification_by_first_column [1, 1] (by decide) (by decide)

/-- C3: when the coefficients are neither all strictly positive nor all
strictly negative, the analyzer returns Unstable with the mixed-sign reason
immediately, and the returned table consists of the single initial row
`coeffs[::2]` — no further rows are built. -/
theorem routh_mixed_signs_short_circuit (coeffs : List ℚ)
    (hpos : coeffs.all (fun c => decide (0 < c)) = false)
    (hneg : coeffs.all (fun c => decide (c < 0)) = false) :
    routh_hurwitz coeffs =
      ([(evenIdx coeffs).map Entry.raw], Stability.UnstableMixedSigns) ∧
    (routh_hurwitz coeffs).1.length = 1 := by
  have h : sameSignPre coeffs = false := by
    simp [sameSignPre, hpos, hneg]
  constructor
  · simp [routh_hurwitz, h]
  · simp [routh_hurwitz, h]

/-- C3 witness: the theorem applied to den = [1, -1]. -/
theorem routh_mixed_signs_short_circuit_witness :
    routh_hurwitz [1, -1] =
      ([[Entry.raw 1]], Stability.UnstableMixedSigns) ∧
    (routh_hurwitz [1, -1]).1.length = 1 :=
  routh_mixed_signs_short_circuit [1, -1] (by decide) (by decide)

/-- C4: a zero first element of the previous row makes the construction loop
return the table built so far with the singular flag, with no further rows
(first conjunct, for any loop state with an iteration remaining); the
analyzer then reports Unstable with the division-by-zero reason together
with that partial table (second conjunct).  The embedding is a total
function, mirroring that this path raises no exception. -/
theorem routh_zero_pivot_returns_partial_table :
    (∀ (fuel : ℕ) (pp p : List Entry) (acc : List (List Entry)),
        rowVal p 0 = 0 → buildLoop (fuel + 1) pp p acc = (acc, true)) ∧
    (∀ coeffs : List ℚ, sameSignPre coeffs = true →
        (routhTable coeffs).2 = true →
        routh_hurwitz coeffs =
          ((routhTable coeffs).1, Stability.UnstableSingularPivot)) := by
  constructor
  · intro fuel pp p acc h
    simp [buildLoop, h]
  · intro coeffs hpre hsing
    simp [routh_hurwitz, hpre, hsing]

/-- C4 witness: the loop conjunct at a concrete zero-pivot state, and the
analyzer conjunct at den = [1, 1, 1, 1], whose s² row computes to the single
entry 0 so that the next iteration divides by zero. -/
theorem routh_zero_pivot_returns_partial_table_witness :
    buildLoop 1 [] [Entry.fmt 0] [[Entry.fmt 0]] = ([[Entry.fmt 0]], true) ∧
    routh_hurwitz [1, 1, 1, 1] =
      ((routhTable [1, 1, 1, 1]).1, Stability.UnstableSingularPivot) :=
  ⟨routh_zero_pivot_returns_partial_table.1 0 [] [Entry.fmt 0] [[Entry.fmt 0]]
      (by norm_num [rowVal, Entry.val]),
   routh_zero_pivot_returns_partial_table.2 [1, 1, 1, 1] (by decide)
      (by norm_num [routhTable, buildLoop, nextRow, rowVal, evenIdx, oddIdx,
        fmt4, dropTrailingZeroStr, Entry.isZeroStr, Entry.val, List.range_succ])⟩

/-- C5 (code bug, observed at den = [1, 1, 1, 1]): the s² row computes the
single entry 0, stored as the string `"0.0000"`; the removal loop compares
cells against the literal `"0"`, which a `%.4f`-formatted cell never equals,
so the trailing zero is *not* dropped, the row does not collapse, and the
next iteration takes the zero-pivot path — the analyzer returns the three-row
table with the trailing zero entry still present and the classification
Unstable (division by zero), where the intended dropping would have ended
construction early with classification Stable from first column [1, 1]. -/
theorem routh_trailing_zero_not_dropped :
    routh_hurwitz [1, 1, 1, 1] =
      ([[Entry.raw 1, Entry.raw 1], [Entry.raw 1, Entry.raw 1], [Entry.fmt 0]],
        Stability.UnstableSingularPivot) ∧
    Entry.isZeroStr (Entry.fmt 0) = false ∧
    classifyFirstCol [1, 1] = Stability.Stable := by
  refine ⟨?_, by decide, ?_⟩
  · norm_num [routh_hurwitz, sameSignPre, routhTable, buildLoop, nextRow,
      rowVal, evenIdx, oddIdx, fmt4, dropTrailingZeroStr, Entry.isZeroStr,
      Entry.val, List.range_succ]
  · norm_num [classifyFirstCol, signChanges]

/-! Helper lemmas about `conv` and padded addition, shared by the theorems
below. -/

lemma getD_map_mul (c : ℚ) (a : List ℚ) (i : ℕ) :
    (a.map (fun x => c * x)).getD i 0 = c * a.getD i 0 := by
  rcases Nat.lt_or_ge i a.length with h | h
  · rw [List.getD_eq_getElem _ _ (by simpa using h), List.getD_eq_getElem _ _ h]
    simp
  · rw [List.getD_eq_default _ _ (by simpa using h), List.getD_eq_default _ _ h]
    simp

lemma map_range_getD (f : ℚ → ℚ) (l : List ℚ) :
    (List.range l.length).map (fun k => f (l.getD k 0)) = l.map f := by
  apply List.ext_getElem
  · simp
  · intro i h1 h2
    simp only [List.getElem_map, List.getElem_range]
    rw [List.getD_eq_getElem _ _ (by simpa using h2)]

lemma conv_singleton (c : ℚ) (b : List ℚ) :
    conv [c] b = b.map fun x => c * x := by
  rcases b with _ | ⟨x, xs⟩
  · simp [conv]
  · unfold conv
    simp only [List.isEmpty_cons, Bool.or_self, if_false, List.length_cons,
      List.length_singleton]
    have h1 : ∀ k, ∑ i ∈ Finset.range (k + 1),
        ([c].getD i 0) * ((x :: xs).getD (k - i) 0) = c * (x :: xs).getD k 0 := by
      intro k
      rw [Finset.sum_eq_single 0]
      · simp
      · intro i hi hne
        have h0 : [c].getD i 0 = 0 :=
          List.getD_eq_default _ _ (by simpa using Nat.one_le_iff_ne_zero.mpr hne)
        rw [h0, zero_mul]
      · simp
    have h2 : 1 + (xs.length + 1) - 1 = (x :: xs).length := by simp
    calc (List.range (1 + (xs.length + 1) - 1)).map (fun k =>
          ∑ i ∈ Finset.range (k + 1), ([c].getD i 0) * ((x :: xs).getD (k - i) 0))
        = (List.range (x :: xs).length).map (fun k => c * (x :: xs).getD k 0) := by
          rw [h2]
          exact List.map_congr_left fun k _ => h1 k
      _ = (x :: xs).map fun y => c * y := map_range_getD (fun y => c * y) (x :: xs)

lemma conv_map_mul (c : ℚ) (a b : List ℚ) :
    conv (a.map fun x => c * x) b = (conv a b).map fun x => c * x := by
  rcases a with _ | ⟨x, xs⟩
  · simp [conv]
  rcases b with _ | ⟨y, ys⟩
  · simp [conv]
  unfold conv
  rw [if_neg (by simp), if_neg (by simp), List.map_map]
  simp only [List.length_map]
  apply List.map_congr_left
  intro k _
  simp only [Function.comp_apply]
  rw [Finset.mul_sum]
  apply Finset.sum_congr rfl
  intro i _
  rw [getD_map_mul, mul_assoc]

lemma map_one_mul (l : List ℚ) : (l.map fun x => (1 : ℚ) * x) = l := by
  simp

lemma padAddLow_length (a b : List ℚ) :
    (padAddLow a b).length = max a.length b.length := by
  simp [padAddLow, Nat.sub_add_cancel (Nat.le_max_left a.length b.length),
    Nat.sub_add_cancel (Nat.le_max_right a.length b.length)]

/-- C7 counterexample: the claim's general formula contradicts its own
instance.  Right-padding `G.den = [1, 1]` and `G.num = [1]` to a common
length and adding gives `[2, 1]`, not the closed-loop denominator `[1, 2]`
that the claim (and the actual feedback composition, which adds the
polynomials with constant terms aligned) produces for `G = 1/(s+1)`. -/
theorem fb_unity_right_padding_contradicts_instance :
    padAddRight [1, 1] [1] ≠ [1, 2] ∧
    fb_unity ⟨[1], [1, 1]⟩ = ⟨[1], [1, 2]⟩ := by
  constructor
  · intro h
    have h0 : padAddRight [1, 1] [1] = [2, 1] := by
      norm_num [padAddRight]
    rw [h0] at h
    norm_num at h
  · show TF.mk [1] (padAddLow [1, 1] [1]) = TF.mk [1] [1, 2]
    norm_num [padAddLow]

/-- C7 (amended): unity negative feedback keeps the numerator `G.num` and
adds `G.den` and `G.num` as polynomials, aligning constant terms — the
shorter list is *left*-padded with zeros to the common length (the
denominator length is therefore the max of the two lengths); in particular
`G = 1/(s+1)` gives closed-loop numerator `[1]` and denominator `[1, 2]`. -/
theorem fb_unity_left_padded_sum :
    (∀ G : TF, (fb_unity G).num = G.num ∧
      (fb_unity G).den = padAddLow G.den G.num ∧
      (fb_unity G).den.length = max G.den.length G.num.length) ∧
    fb_unity ⟨[1], [1, 1]⟩ = ⟨[1], [1, 2]⟩ := by
  constructor
  · intro G
    refine ⟨rfl, rfl, ?_⟩
    exact padAddLow_length G.den G.num
  · show TF.mk [1] (padAddLow [1, 1] [1]) = TF.mk [1] [1, 2]
    norm_num [padAddLow]

/-- C8: the Avanço-Atraso branch `kp * G_avanco * G_atraso` equals the
scalar gain `kp` applied once to the series product of the two factors
(first conjunct, for all gains and coefficient lists); applying the gain to
each factor instead gives a different transfer function already for
`kp = 2` on unit factors, because the gain would be squared (second
conjunct). -/
theorem leadlag_gain_applied_once :
    (∀ (kp : ℚ) (n1 d1 n2 d2 : List ℚ),
        get_controller_tf_leadlag kp n1 d1 n2 d2 =
          scalarMulTF kp (seriesTF ⟨n1, d1⟩ ⟨n2, d2⟩)) ∧
    get_controller_tf_leadlag 2 [1] [1] [1] [1] ≠
      seriesTF (scalarMulTF 2 ⟨[1], [1]⟩) (scalarMulTF 2 ⟨[1], [1]⟩) := by
  have key : ∀ (kp : ℚ) (n1 d1 n2 d2 : List ℚ),
      get_controller_tf_leadlag kp n1 d1 n2 d2 =
        scalarMulTF kp (seriesTF ⟨n1, d1⟩ ⟨n2, d2⟩) := by
    intro kp n1 d1 n2 d2
    show TF.mk (conv (conv [kp] n1) n2) (conv (conv [1] d1) d2) = _
    rw [conv_singleton kp n1, conv_map_mul kp n1 n2,
      conv_singleton 1 d1, map_one_mul d1]
    rfl
  refine ⟨key, ?_⟩
  rw [key 2 [1] [1] [1] [1]]
  have e1 : scalarMulTF 2 (seriesTF ⟨[1], [1]⟩ ⟨[1], [1]⟩) = ⟨[2], [1]⟩ := by
    rw [show seriesTF ⟨[1], [1]⟩ ⟨[1], [1]⟩
        = TF.mk (conv [1] [1]) (conv [1] [1]) from rfl,
      conv_singleton 1 [1], map_one_mul]
    show TF.mk [(2 : ℚ) * 1] [1] = TF.mk [2] [1]
    norm_num
  have e2 : seriesTF (scalarMulTF 2 ⟨[1], [1]⟩) (scalarMulTF 2 ⟨[1], [1]⟩)
      = ⟨[4], [1]⟩ := by
    show TF.mk (conv [(2 : ℚ) * 1] [(2 : ℚ) * 1]) (conv [1] [1]) = TF.mk [4] [1]
    rw [conv_singleton ((2 : ℚ) * 1) [(2 : ℚ) * 1], conv_singleton 1 [1],
      map_one_mul]
    show TF.mk [(2 : ℚ) * 1 * ((2 : ℚ) * 1)] [1] = TF.mk [4] [1]
    norm_num
  rw [e1, e2]
  intro h
  have h1 : ([2] : List ℚ) = [4] := congrArg TF.num h
  norm_num at h1

/-! Helper lemmas for the time grid and the coefficient parser. -/

lemma linspace_length (a b : ℚ) (n : ℕ) : (linspace a b n).length = n := by
  rw [linspace, List.length_map, List.length_range]

lemma linspace_getD (a b : ℚ) (n i : ℕ) (h : i < n) :
    (linspace a b n).getD i 0 = a + (b - a) * (i : ℚ) / ((n : ℚ) - 1) := by
  rw [List.getD_eq_getElem _ _ (by rw [linspace_length] ; exact h)]
  simp only [linspace, List.getElem_map, List.getElem_range]

lemma pySplitAux_all_ws (s : List Char) (h : s.all isPyWs = true) :
    pySplitAux s [] = [] := by
  induction s with
  | nil => rfl
  | cons c rest ih =>
    rw [List.all_cons, Bool.and_eq_true] at h
    simp [pySplitAux, h.1, ih h.2]

lemma parseTokens_eq_none_iff (pf : List Char → Option ℚ)
    (toks : List (List Char)) :
    parseTokens pf toks = none ↔
      ∃ x ∈ toks, pf (pyStrip isPyWs x) = none := by
  induction toks with
  | nil => simp [parseTokens]
  | cons x xs ih =>
    rcases hx : pf (pyStrip isPyWs x) with _ | v
    · simp [parseTokens, hx]
    · rcases hxs : parseTokens pf xs with _ | vs
      · simp [parseTokens, hx, hxs, ← ih]
      · simp [parseTokens, hx, hxs, ← ih]

set_option maxRecDepth 4000 in
/-- C9: both the ramp and the parabola branches use the fixed grid
`linspace 0 10 1000` — 1000 samples, sample `i` equal to `10·i/999`, evenly
spaced (consecutive difference `10/999`) from 0 to 10 — the ramp reference
is `u = t`, the parabola reference is `u = t²/2` on that same grid, and the
simulated output has one sample per grid point (given that `lsim` returns
one output per supplied time sample). -/
theorem ramp_parabola_share_time_grid
    (lsimF : List ℚ → List ℚ → List ℚ)
    (hlen : ∀ u t, (lsimF u t).length = t.length) :
    ((rampBranch lsimF).1 = linspace 0 10 1000 ∧
      (parabolaBranch lsimF).1 = linspace 0 10 1000) ∧
    (linspace 0 10 1000).length = 1000 ∧
    (∀ i : ℕ, i < 1000 →
      (linspace 0 10 1000).getD i 0 = 10 * (i : ℚ) / 999) ∧
    (∀ i : ℕ, i + 1 < 1000 →
      (linspace 0 10 1000).getD (i + 1) 0 - (linspace 0 10 1000).getD i 0
        = 10 / 999) ∧
    ((linspace 0 10 1000).getD 0 0 = 0 ∧
      (linspace 0 10 1000).getD 999 0 = 10) ∧
    ((rampBranch lsimF).2.2 = (rampBranch lsimF).1 ∧
      (parabolaBranch lsimF).2.2
        = (parabolaBranch lsimF).1.map fun x => x ^ 2 / 2) ∧
    ((rampBranch lsimF).2.1.length = 1000 ∧
      (parabolaBranch lsimF).2.1.length = 1000) := by
  have hv : ∀ i : ℕ, i < 1000 →
      (linspace 0 10 1000).getD i 0 = 10 * (i : ℚ) / 999 := by
    intro i h
    rw [linspace_getD 0 10 1000 i h]
    norm_num
  refine ⟨⟨rfl, rfl⟩, linspace_length 0 10 1000, hv, ?_, ⟨?_, ?_⟩,
    ⟨rfl, rfl⟩, ?_, ?_⟩
  · intro i h
    rw [hv (i + 1) h, hv i (Nat.lt_of_succ_lt h)]
    push_cast
    ring
  · rw [hv 0 (by norm_num)]
    norm_num
  · rw [hv 999 (by norm_num)]
    norm_num
  · show (lsimF (linspace 0 10 1000) (linspace 0 10 1000)).length = 1000
    rw [hlen]
    exact linspace_length 0 10 1000
  · show (lsimF ((linspace 0 10 1000).map fun x => x ^ 2 / 2)
        (linspace 0 10 1000)).length = 1000
    rw [hlen]
    exact linspace_length 0 10 1000

/-- C9 witness: the theorem applied to a concrete grid-respecting simulator
(the one that echoes the time grid), projected to the output-length
conjunct of the ramp branch. -/
theorem ramp_parabola_share_time_grid_witness :
    (rampBranch fun _ t => t).2.1.length = 1000 :=
  (ramp_parabola_share_time_grid (fun _ t => t)
    (fun _ _ => rfl)).2.2.2.2.2.2.1

/-- C10: if the entry text, after stripping `'['` and `']'` from its ends,
is empty or all whitespace, then `parse_coefficients` returns the empty
coefficient list, not an error; and it returns `None` exactly when some
whitespace-separated token of the stripped text fails to parse as a float
(first conjunct instantiating the second at an empty token list). -/
theorem parse_coefficients_empty_or_ws (pf : List Char → Option ℚ)
    (s : List Char) :
    ((pyStrip isBracketChar s).all isPyWs = true →
      parse_coefficients pf s = some []) ∧
    (parse_coefficients pf s = none ↔
      ∃ x ∈ pySplit (pyStrip isBracketChar s),
        pf (pyStrip isPyWs x) = none) := by
  constructor
  · intro h
    unfold parse_coefficients pySplit
    rw [pySplitAux_all_ws _ h]
    rfl
  · exact parseTokens_eq_none_iff pf (pySplit (pyStrip isBracketChar s))

/-- C10 witness: the theorem applied to the entry text `"[ ]"` (bracketed
whitespace) and a parser that accepts everything; the first conjunct yields
the empty coefficient list. -/
theorem parse_coefficients_empty_or_ws_witness :
    parse_coefficients (fun _ => some 0) ['[', ' ', ']'] = some [] :=
  (parse_coefficients_empty_or_ws (fun _ => some 0) ['[', ' ', ']']).1
    (by decide)

end Controladores
